import Mathlib

/-!
Shallow embedding of the maprando repository's GPX reading routines.

The repository has three variants of `read_gpx`:
  * `src/maprando/utils.py`   : returns a pandas data frame (lon, lat, ele,
    elapsed-time columns, timestamp index);
  * `src/maprando/gpx_utils.py`: returns a data frame without the elapsed
    time column;
  * `src/gpx_utils.py`        : returns the in-place normalized point list.

Machine floats are idealized as rationals; a pandas data frame is a list of
rows; the parsed XML document (from xmltodict) is a record with optional
fields, an absent field modelling a missing key (a Python KeyError);
exceptions are modelled with `Except`.
-/

namespace Maprando

/-- Numeric value of a list of decimal digit characters, most significant
first (the usual left fold). -/
def digitsVal (cs : List Char) : ℕ :=
  cs.foldl (fun a c => a * 10 + (c.toNat - 48)) 0

/-- Parse an unsigned decimal literal: digits, optionally followed by a dot
and more digits, with at least one digit overall (so "1", "1.5", "1.",
".5" parse and "", ".", "a.b" do not), as Python float() accepts. -/
def parseDec (cs : List Char) : Option ℚ :=
  let ip := cs.takeWhile (fun c => c.isDigit)
  let rest := cs.dropWhile (fun c => c.isDigit)
  match rest with
  | [] => if ip.isEmpty then none else some (digitsVal ip : ℚ)
  | '.' :: fp =>
      if fp.all (fun c => c.isDigit) && !(ip.isEmpty && fp.isEmpty) then
        some ((digitsVal ip : ℚ) + (digitsVal fp : ℚ) / (10 ^ fp.length))
      else none
  | _ => none

/-- Model of Python `float(s)` on the plain decimal literals found in GPX
coordinate and elevation strings: optional sign then a decimal literal;
`none` models the ValueError raised on a non-numeric string. -/
def parseFloat (s : String) : Option ℚ :=
  match s.toList with
  | '-' :: cs => (parseDec cs).map (fun q => -q)
  | '+' :: cs => parseDec cs
  | cs => parseDec cs

/-- A Python `datetime.datetime` with second resolution (the GPX timestamp
format carries no sub-second part). -/
structure DateTime where
  year : ℕ
  month : ℕ
  day : ℕ
  hour : ℕ
  minute : ℕ
  second : ℕ
deriving DecidableEq, Repr

/-- Gregorian leap year, as Python's calendar rules. -/
def isLeap (y : ℕ) : Bool :=
  (y % 4 == 0 && y % 100 != 0) || y % 400 == 0

/-- Number of days of month `m` (1-12) of year `y`. -/
def daysInMonth (y m : ℕ) : ℕ :=
  if m == 2 then (if isLeap y then 29 else 28)
  else if m == 4 || m == 6 || m == 9 || m == 11 then 30
  else 31

/-- Validity of a datetime, as Python's `datetime` constructor checks it
(year 1-9999, month 1-12, day within the month, time fields in range). -/
def validDate (y mo d h mi s : ℕ) : Bool :=
  decide (1 ≤ y ∧ y ≤ 9999 ∧ 1 ≤ mo ∧ mo ≤ 12 ∧ 1 ≤ d ∧ d ≤ daysInMonth y mo
    ∧ h ≤ 23 ∧ mi ≤ 59 ∧ s ≤ 59)

/-- Two-digit numeric value. -/
def twoDigits (a b : Char) : ℕ :=
  (a.toNat - 48) * 10 + (b.toNat - 48)

/-- Model of `datetime.datetime.strptime(s, "%Y-%m-%dT%H:%M:%SZ")`:
`none` models the ValueError raised when the string does not match the
format or is not a valid date. -/
def parseTimestamp (s : String) : Option DateTime :=
  match s.toList with
  | [y1, y2, y3, y4, a, m1, m2, b, d1, d2, c, h1, h2, e, n1, n2, f, s1, s2, g] =>
      if a == '-' && b == '-' && c == 'T' && e == ':' && f == ':' && g == 'Z'
          && y1.isDigit && y2.isDigit && y3.isDigit && y4.isDigit
          && m1.isDigit && m2.isDigit && d1.isDigit && d2.isDigit
          && h1.isDigit && h2.isDigit && n1.isDigit && n2.isDigit
          && s1.isDigit && s2.isDigit then
        let y := twoDigits y1 y2 * 100 + twoDigits y3 y4
        let mo := twoDigits m1 m2
        let d := twoDigits d1 d2
        let h := twoDigits h1 h2
        let mi := twoDigits n1 n2
        let sec := twoDigits s1 s2
        if validDate y mo d h mi sec then some ⟨y, mo, d, h, mi, sec⟩ else none
      else none
  | _ => none

/-- Days in years 1..y-1 of the proleptic Gregorian calendar. -/
def daysBeforeYear (y : ℕ) : ℕ :=
  (y - 1) * 365 + (y - 1) / 4 - (y - 1) / 100 + (y - 1) / 400

/-- Days in months 1..m-1 of year `y`. -/
def daysBeforeMonth (y m : ℕ) : ℕ :=
  (List.range (m - 1)).foldl (fun acc i => acc + daysInMonth y (i + 1)) 0

/-- Serial day number of a datetime's date (0001-01-01 is day 0). -/
def toDayNumber (t : DateTime) : ℕ :=
  daysBeforeYear t.year + daysBeforeMonth t.year t.month + (t.day - 1)

/-- A datetime as a count of seconds, for taking differences as Python's
datetime subtraction does. -/
def toSecs (t : DateTime) : ℤ :=
  ((toDayNumber t * 86400 + t.hour * 3600 + t.minute * 60 + t.second : ℕ) : ℤ)

/-- Model of Python `(t1 - t0).seconds`: the `seconds` component of the
normalized timedelta, i.e. the difference modulo 86400 (floor convention,
always in [0, 86400), days discarded) -- not the total elapsed seconds. -/
def tdSeconds (t0 t1 : DateTime) : ℤ :=
  Int.emod (toSecs t1 - toSecs t0) 86400

/-- Model of Python `(t1 - t0).total_seconds()`: the full signed difference
in seconds. -/
def totalSeconds (t0 t1 : DateTime) : ℤ :=
  toSecs t1 - toSecs t0

/-- A `trkpt` element as xmltodict parses it: an ordered dict of string
fields. The four fields read_gpx touches are explicit; `extra` carries
every other field of the dict, untouched by the code. -/
structure RawPoint where
  lon : String
  lat : String
  ele : String
  time : String
  extra : List (String × String)
deriving DecidableEq, Repr

/-- The `trk` subtree: `data["gpx"]["trk"]["name"]` and
`data["gpx"]["trk"]["trkseg"]["trkpt"]`; an absent `trkpt` key is `none`. -/
structure Trk where
  name : String
  trkpts : Option (List RawPoint)
deriving DecidableEq, Repr

/-- The parsed GPX document: `data["gpx"]["metadata"]["time"]` and
`data["gpx"]["trk"]`; an absent key along either path is `none`
(modelling the KeyError the lookup raises). -/
structure GpxDoc where
  metadataTime : Option String
  trk : Option Trk
deriving DecidableEq, Repr

/-- The four bound variables of the single-pass loop. -/
structure Bounds where
  xmin : ℚ
  xmax : ℚ
  ymin : ℚ
  ymax : ℚ
deriving DecidableEq, Repr

/-- The sentinels the loop starts from: xmin, xmax, ymin, ymax = 180, -180,
90, -90. -/
def initBounds : Bounds := ⟨180, -180, 90, -90⟩

/-- One iteration's bound updates: the four independent `if` statements of
the loop body. -/
def stepBounds (b : Bounds) (lon lat : ℚ) : Bounds where
  xmin := if lon < b.xmin then lon else b.xmin
  xmax := if lon > b.xmax then lon else b.xmax
  ymin := if lat < b.ymin then lat else b.ymin
  ymax := if lat > b.ymax then lat else b.ymax

namespace Utils

/-- A point after the in-place normalization of `utils.py`: lon, lat, ele
converted to float and time to a datetime. -/
structure UPoint where
  lon : ℚ
  lat : ℚ
  ele : ℚ
  time : DateTime
deriving DecidableEq, Repr

/-- The whole-point effect of one loop iteration of `utils.py`:
all four conversions succeed, or the iteration raises. -/
def convPoint (p : RawPoint) : Option UPoint :=
  match parseFloat p.lon, parseFloat p.lat, parseFloat p.ele,
      parseTimestamp p.time with
  | some lon, some lat, some ele, some t => some ⟨lon, lat, ele, t⟩
  | _, _, _, _ => none

/-- The `for item in points` loop of `read_gpx` in `utils.py`: converts
each point's fields in place and updates the bounds, raising on the first
point whose conversion fails. Returns the normalized points and the final
bounds. -/
def normLoop : List RawPoint → Bounds → Except String (List UPoint × Bounds)
  | [], b => .ok ([], b)
  | p :: rest, b =>
      match parseFloat p.lon with
      | none => .error "ValueError: could not convert string to float"
      | some lon =>
      match parseFloat p.lat with
      | none => .error "ValueError: could not convert string to float"
      | some lat =>
      match parseFloat p.ele with
      | none => .error "ValueError: could not convert string to float"
      | some ele =>
      match parseTimestamp p.time with
      | none => .error "ValueError: time data does not match format"
      | some t =>
      match normLoop rest (stepBounds b lon lat) with
      | .error e => .error e
      | .ok (ps, b2) => .ok (⟨lon, lat, ele, t⟩ :: ps, b2)

/-- One row of the returned pandas data frame: the datetime index entry
and the lon, lat, ele, time (elapsed seconds) columns, all held as floats
by the underlying numpy array. -/
structure URow where
  idx : DateTime
  lon : ℚ
  lat : ℚ
  ele : ℚ
  telapsed : ℚ
deriving DecidableEq, Repr

/-- The value `read_gpx` of `utils.py` returns: activity date and name,
the four bounds, and the data frame (as its list of rows). -/
structure ReadResult where
  activityDate : DateTime
  activityName : String
  xmin : ℚ
  xmax : ℚ
  ymin : ℚ
  ymax : ℚ
  frame : List URow
deriving DecidableEq, Repr

/-- The comprehensions building the numpy array and the data frame from
the normalized points: one row per point, in order, with the elapsed time
`(point.time - points[0].time).seconds`; `points[0]` is never evaluated
when the list is empty, so the empty list yields the empty frame. -/
def mkRows (nps : List UPoint) : List URow :=
  match nps with
  | [] => []
  | p0 :: _ =>
      nps.map (fun p =>
        URow.mk p.time p.lon p.lat p.ele ((tdSeconds p0.time p.time : ℤ) : ℚ))

/-- `read_gpx` of `src/maprando/utils.py`. The elapsed-time column uses
`(point.time - points[0].time).seconds` (the `tdSeconds` model); the
comprehension never evaluates `points[0]` when the point list is empty.
`Except.error` models an uncaught exception propagating to the caller. -/
def read_gpx (doc : GpxDoc) : Except String ReadResult :=
  match doc.metadataTime with
  | none => .error "KeyError: time"
  | some mt =>
  match parseTimestamp mt with
  | none => .error "ValueError: time data does not match format"
  | some activityDate =>
  match doc.trk with
  | none => .error "KeyError: trk"
  | some trk =>
  match trk.trkpts with
  | none => .error "KeyError: trkpt"
  | some pts =>
  match normLoop pts initBounds with
  | .error e => .error e
  | .ok (nps, b) =>
      .ok ⟨activityDate, trk.name, b.xmin, b.xmax, b.ymin, b.ymax, mkRows nps⟩

end Utils

namespace GpxUtils

/-- A point after the in-place normalization of `src/gpx_utils.py`: lon,
lat, ele converted to float; the `time` string and every other field of
the dict left as they were. -/
structure GPoint where
  lon : ℚ
  lat : ℚ
  ele : ℚ
  time : String
  extra : List (String × String)
deriving DecidableEq, Repr

/-- The whole-point effect of one loop iteration of `src/gpx_utils.py`:
only the three coordinate fields are converted. -/
def convPoint (p : RawPoint) : Option GPoint :=
  match parseFloat p.lon, parseFloat p.lat, parseFloat p.ele with
  | some lon, some lat, some ele => some ⟨lon, lat, ele, p.time, p.extra⟩
  | _, _, _ => none

/-- The `for item in points` loop of `read_gpx` in `src/gpx_utils.py`. -/
def normLoop : List RawPoint → Bounds → Except String (List GPoint × Bounds)
  | [], b => .ok ([], b)
  | p :: rest, b =>
      match parseFloat p.lon with
      | none => .error "ValueError: could not convert string to float"
      | some lon =>
      match parseFloat p.lat with
      | none => .error "ValueError: could not convert string to float"
      | some lat =>
      match parseFloat p.ele with
      | none => .error "ValueError: could not convert string to float"
      | some ele =>
      match normLoop rest (stepBounds b lon lat) with
      | .error e => .error e
      | .ok (ps, b2) => .ok (⟨lon, lat, ele, p.time, p.extra⟩ :: ps, b2)

/-- The value `read_gpx` of `src/gpx_utils.py` returns: activity date and
name, the four bounds, and the (mutated) point list itself. -/
structure ReadResult where
  activityDate : DateTime
  activityName : String
  xmin : ℚ
  xmax : ℚ
  ymin : ℚ
  ymax : ℚ
  points : List GPoint
deriving DecidableEq, Repr

/-- `read_gpx` of `src/gpx_utils.py` (the shapely variant): same document
access and bounds loop as the others, but the returned point sequence is
the in-place-normalized list, with no data frame and no time conversion. -/
def read_gpx (doc : GpxDoc) : Except String ReadResult :=
  match doc.metadataTime with
  | none => .error "KeyError: time"
  | some mt =>
  match parseTimestamp mt with
  | none => .error "ValueError: time data does not match format"
  | some activityDate =>
  match doc.trk with
  | none => .error "KeyError: trk"
  | some trk =>
  match trk.trkpts with
  | none => .error "KeyError: trkpt"
  | some pts =>
  match normLoop pts initBounds with
  | .error e => .error e
  | .ok (nps, b) =>
      .ok ⟨activityDate, trk.name, b.xmin, b.xmax, b.ymin, b.ymax, nps⟩

end GpxUtils

/-- Folding the loop's bound updates over a list of (lon, lat) pairs. -/
def boundsFold (b : Bounds) (cs : List (ℚ × ℚ)) : Bounds :=
  cs.foldl (fun acc c => stepBounds acc c.1 c.2) b

/-- The scalar shape of the loop's `if item < acc` minimum update. -/
def foldMin (a : ℚ) (ls : List ℚ) : ℚ :=
  ls.foldl (fun acc l => if l < acc then l else acc) a

/-- The scalar shape of the loop's `if item > acc` maximum update. -/
def foldMax (a : ℚ) (ls : List ℚ) : ℚ :=
  ls.foldl (fun acc l => if l > acc then l else acc) a

/-- Reference definition, following the spec's words: the minimum of a
list of values taken directly (`none` on the empty list). -/
def listMin : List ℚ → Option ℚ
  | [] => none
  | a :: as => some (as.foldl min a)

/-- Reference definition, following the spec's words: the maximum of a
list of values taken directly (`none` on the empty list). -/
def listMax : List ℚ → Option ℚ
  | [] => none
  | a :: as => some (as.foldl max a)

/-- The single-pass bounds-tracking loop of `read_gpx`, isolated: fold the
four `if` updates over the coordinate pairs starting from the sentinels
180, -180, 90, -90. -/
def foldBounds (coords : List (ℚ × ℚ)) : Bounds :=
  boundsFold initBounds coords

/-- Reference definition, following the spec's words: the bounding box as
the min and max of the longitude and latitude lists taken directly. -/
def specBounds (coords : List (ℚ × ℚ)) : Option (ℚ × ℚ × ℚ × ℚ) :=
  match listMin (coords.map Prod.fst), listMax (coords.map Prod.fst),
      listMin (coords.map Prod.snd), listMax (coords.map Prod.snd) with
  | some a, some b, some c, some d => some (a, b, c, d)
  | _, _, _, _ => none

/-- Modelled from the spec: the repository's plotting variant that colors
the path by speed is not under `src/` (only the plain-blue `maprando.py`
is); the spec says it derives "velocity via gradient". This is the
numpy-style gradient on a uniformly indexed sequence: one-sided
differences at the two ends, central differences in the interior
(intended for sequences of length at least 2). -/
def npGradient (xs : List ℚ) : List ℚ :=
  (List.range xs.length).map (fun i =>
    if i == 0 then xs.getD 1 0 - xs.getD 0 0
    else if i == xs.length - 1 then xs.getD i 0 - xs.getD (i - 1) 0
    else (xs.getD (i + 1) 0 - xs.getD (i - 1) 0) / 2)

/-- Modelled from the spec: the "digital low-pass filter" smoothing the
speed values, as a first-order recursive (exponential) low-pass with
coefficient `a`, carrying the previous output along. -/
def lowpassAux (a : ℚ) (prev : ℚ) : List ℚ → List ℚ
  | [] => []
  | x :: xs =>
      let y := a * x + (1 - a) * prev
      y :: lowpassAux a y xs

/-- Modelled from the spec: the low-pass filter seeded with the first
sample. -/
def lowpass (a : ℚ) (xs : List ℚ) : List ℚ :=
  match xs with
  | [] => []
  | x :: rest => x :: lowpassAux a x rest

/-- Modelled from the spec: the derived speed column for coloring the
plotted path -- velocity via gradient (gradient of cumulative distance
over gradient of elapsed time) then smoothed by the digital low-pass
filter. -/
def speedColumn (a : ℚ) (dists times : List ℚ) : List ℚ :=
  lowpass a (List.zipWith (fun d t => if t = 0 then 0 else d / t)
    (npGradient dists) (npGradient times))

/-- Timestamp comparison between two raw points: when both "time" strings
parse, the first is no later than the second (vacuously true otherwise).
Decidable, for stating order hypotheses on input documents. -/
def stampLE (p p' : RawPoint) : Bool :=
  match parseTimestamp p.time, parseTimestamp p'.time with
  | some a, some b => decide (toSecs a ≤ toSecs b)
  | _, _ => true

/-- A well-formed two-point track (in-range coordinates, increasing
timestamps). -/
def exPts : List RawPoint :=
  [⟨"1", "45", "100", "2020-01-01T10:00:00Z", []⟩,
   ⟨"2", "44", "110", "2020-01-01T10:00:05Z", [("hdop", "3")]⟩]

/-- The document holding `exPts`. -/
def exDoc : GpxDoc := ⟨some "2020-01-01T09:59:00Z", some ⟨"morning run", some exPts⟩⟩

/-- The value `read_gpx` of `utils.py` returns on `exDoc`: elapsed times
0 and 5 seconds, bounding box [1, 2] x [44, 45]. -/
def exResult : Utils.ReadResult :=
  ⟨⟨2020, 1, 1, 9, 59, 0⟩, "morning run", 1, 2, 44, 45,
    [⟨⟨2020, 1, 1, 10, 0, 0⟩, 1, 45, 100, 0⟩,
     ⟨⟨2020, 1, 1, 10, 0, 5⟩, 2, 44, 110, 5⟩]⟩

/-- The value `read_gpx` of `src/gpx_utils.py` returns on `exDoc`. -/
def exResultG : GpxUtils.ReadResult :=
  ⟨⟨2020, 1, 1, 9, 59, 0⟩, "morning run", 1, 2, 44, 45,
    [⟨1, 45, 100, "2020-01-01T10:00:00Z", []⟩,
     ⟨2, 44, 110, "2020-01-01T10:00:05Z", [("hdop", "3")]⟩]⟩

/-- A track whose two timestamps are one day plus ten seconds apart. -/
def dayGapPts : List RawPoint :=
  [⟨"1", "45", "100", "2020-01-01T00:00:00Z", []⟩,
   ⟨"2", "44", "110", "2020-01-02T00:00:10Z", []⟩]

/-- The document holding `dayGapPts`. -/
def dayGapDoc : GpxDoc := ⟨some "2020-01-01T00:00:00Z", some ⟨"trek", some dayGapPts⟩⟩

/-- What `read_gpx` of `utils.py` returns on `dayGapDoc`: the second
point's "time" entry is 10, although 86410 seconds elapsed. -/
def dayGapResult : Utils.ReadResult :=
  ⟨⟨2020, 1, 1, 0, 0, 0⟩, "trek", 1, 2, 44, 45,
    [⟨⟨2020, 1, 1, 0, 0, 0⟩, 1, 45, 100, 0⟩,
     ⟨⟨2020, 1, 2, 0, 0, 10⟩, 2, 44, 110, 10⟩]⟩

/-- A track whose timestamps appear in decreasing order in the document. -/
def descPts : List RawPoint :=
  [⟨"1", "45", "100", "2020-01-01T10:00:10Z", []⟩,
   ⟨"2", "44", "110", "2020-01-01T10:00:05Z", []⟩]

/-- The document holding `descPts`. -/
def descDoc : GpxDoc := ⟨some "2020-01-01T09:59:00Z", some ⟨"run", some descPts⟩⟩

/-- What `read_gpx` of `utils.py` returns on `descDoc`: the index keeps
the document order, so its timestamps are decreasing. -/
def descResult : Utils.ReadResult :=
  ⟨⟨2020, 1, 1, 9, 59, 0⟩, "run", 1, 2, 44, 45,
    [⟨⟨2020, 1, 1, 10, 0, 10⟩, 1, 45, 100, 0⟩,
     ⟨⟨2020, 1, 1, 10, 0, 5⟩, 2, 44, 110, 86395⟩]⟩

/-- A document whose track has an empty point list. -/
def emptyDoc : GpxDoc := ⟨some "2020-01-01T09:59:00Z", some ⟨"empty", some []⟩⟩

/-- A document missing the `gpx/metadata/time` key. -/
def noTimeDoc : GpxDoc := ⟨none, some ⟨"run", some exPts⟩⟩

/-- A document with a point whose longitude string is not numeric. -/
def badLonDoc : GpxDoc :=
  ⟨some "2020-01-01T09:59:00Z",
   some ⟨"run", some [⟨"not-a-number", "45.0", "100.0", "2020-01-01T10:00:00Z", []⟩]⟩⟩

/-! ### Lemmas about the scalar min/max folds -/

theorem foldMin_nil (a : ℚ) : foldMin a [] = a := rfl

theorem foldMin_cons (a l : ℚ) (ls : List ℚ) :
    foldMin a (l :: ls) = foldMin (if l < a then l else a) ls := rfl

theorem foldMax_nil (a : ℚ) : foldMax a [] = a := rfl

theorem foldMax_cons (a l : ℚ) (ls : List ℚ) :
    foldMax a (l :: ls) = foldMax (if l > a then l else a) ls := rfl

theorem min_step_le (a l : ℚ) : (if l < a then l else a) ≤ a := by
  split
  · exact le_of_lt (by assumption)
  · exact le_rfl

theorem min_step_le_l (a l : ℚ) : (if l < a then l else a) ≤ l := by
  split
  · exact le_rfl
  · exact le_of_not_lt (by assumption)

theorem max_step_ge (a l : ℚ) : a ≤ (if l > a then l else a) := by
  split
  · exact le_of_lt (by assumption)
  · exact le_rfl

theorem max_step_ge_l (a l : ℚ) : l ≤ (if l > a then l else a) := by
  split
  · exact le_rfl
  · exact le_of_not_lt (by assumption)

theorem foldMin_le_init (ls : List ℚ) : ∀ a : ℚ, foldMin a ls ≤ a := by
  induction ls with
  | nil => intro a; simp [foldMin_nil]
  | cons l ls ih =>
      intro a
      rw [foldMin_cons]
      exact le_trans (ih _) (min_step_le a l)

theorem foldMin_le_mem (ls : List ℚ) :
    ∀ (a l : ℚ), l ∈ ls → foldMin a ls ≤ l := by
  induction ls with
  | nil => intro a l h; simp at h
  | cons x ls ih =>
      intro a l h
      rw [foldMin_cons]
      rcases List.mem_cons.mp h with rfl | hmem
      · exact le_trans (foldMin_le_init ls _) (min_step_le_l a l)
      · exact ih _ l hmem

theorem foldMin_eq_init_or_mem (ls : List ℚ) :
    ∀ a : ℚ, foldMin a ls = a ∨ foldMin a ls ∈ ls := by
  induction ls with
  | nil => intro a; left; rfl
  | cons x ls ih =>
      intro a
      rw [foldMin_cons]
      rcases ih (if x < a then x else a) with heq | hmem
      · rw [heq]
        by_cases hx : x < a
        · right; simp [hx]
        · left; simp [hx]
      · right; exact List.mem_cons_of_mem x hmem

theorem foldMax_ge_init (ls : List ℚ) : ∀ a : ℚ, a ≤ foldMax a ls := by
  induction ls with
  | nil => intro a; simp [foldMax_nil]
  | cons l ls ih =>
      intro a
      rw [foldMax_cons]
      exact le_trans (max_step_ge a l) (ih _)

theorem foldMax_ge_mem (ls : List ℚ) :
    ∀ (a l : ℚ), l ∈ ls → l ≤ foldMax a ls := by
  induction ls with
  | nil => intro a l h; simp at h
  | cons x ls ih =>
      intro a l h
      rw [foldMax_cons]
      rcases List.mem_cons.mp h with rfl | hmem
      · exact le_trans (max_step_ge_l a l) (foldMax_ge_init ls _)
      · exact ih _ l hmem

theorem foldMax_eq_init_or_mem (ls : List ℚ) :
    ∀ a : ℚ, foldMax a ls = a ∨ foldMax a ls ∈ ls := by
  induction ls with
  | nil => intro a; left; rfl
  | cons x ls ih =>
      intro a
      rw [foldMax_cons]
      rcases ih (if x > a then x else a) with heq | hmem
      · rw [heq]
        by_cases hx : x > a
        · right; simp [hx]
        · left; simp [hx]
      · right; exact List.mem_cons_of_mem x hmem

theorem foldMin_sentinel (i a : ℚ) (ls : List ℚ) (h : a ≤ i) :
    foldMin i (a :: ls) = foldMin a ls := by
  rw [foldMin_cons]
  rcases lt_or_eq_of_le h with hlt | heq
  · simp [hlt]
  · simp [heq]

theorem foldMax_sentinel (i a : ℚ) (ls : List ℚ) (h : i ≤ a) :
    foldMax i (a :: ls) = foldMax a ls := by
  rw [foldMax_cons]
  rcases lt_or_eq_of_le h with hlt | heq
  · simp [hlt]
  · simp [← heq]

theorem min_eq_step (x y : ℚ) : min x y = if y < x then y else x := by
  by_cases h : y < x
  · simp [h, min_eq_right (le_of_lt h)]
  · simp [h, min_eq_left (le_of_not_lt h)]

theorem max_eq_step (x y : ℚ) : max x y = if y > x then y else x := by
  by_cases h : y > x
  · simp [h, max_eq_right (le_of_lt h)]
  · simp [h, max_eq_left (le_of_not_lt h)]

theorem listMin_cons (a : ℚ) (ls : List ℚ) :
    listMin (a :: ls) = some (foldMin a ls) := by
  have hfun : (fun acc l => min acc l) = fun acc l : ℚ => if l < acc then l else acc := by
    funext acc l
    exact min_eq_step acc l
  simp only [listMin, foldMin, ← hfun]

theorem listMax_cons (a : ℚ) (ls : List ℚ) :
    listMax (a :: ls) = some (foldMax a ls) := by
  have hfun : (fun acc l => max acc l) = fun acc l : ℚ => if l > acc then l else acc := by
    funext acc l
    exact max_eq_step acc l
  simp only [listMax, foldMax, ← hfun]

/-! ### Structure lemmas for the `utils.py` variant -/

namespace Utils

theorem convPoint_fields {p : RawPoint} {q : UPoint} (h : convPoint p = some q) :
    parseFloat p.lon = some q.lon ∧ parseFloat p.lat = some q.lat ∧
      parseFloat p.ele = some q.ele ∧ parseTimestamp p.time = some q.time := by
  rcases hlon : parseFloat p.lon with _ | lon
  · simp [convPoint, hlon] at h
  rcases hlat : parseFloat p.lat with _ | lat
  · simp [convPoint, hlon, hlat] at h
  rcases hele : parseFloat p.ele with _ | ele
  · simp [convPoint, hlon, hlat, hele] at h
  rcases ht : parseTimestamp p.time with _ | t
  · simp [convPoint, hlon, hlat, hele, ht] at h
  have hq : UPoint.mk lon lat ele t = q := by
    simpa [convPoint, hlon, hlat, hele, ht] using h
  subst hq
  exact ⟨rfl, rfl, rfl, rfl⟩

theorem normLoop_cons_ok {p : RawPoint} {rest : List RawPoint} {b : Bounds}
    {nps : List UPoint} {b2 : Bounds}
    (h : normLoop (p :: rest) b = .ok (nps, b2)) :
    ∃ q ps, convPoint p = some q ∧
      normLoop rest (stepBounds b q.lon q.lat) = .ok (ps, b2) ∧
      nps = q :: ps := by
  rcases hlon : parseFloat p.lon with _ | lon
  · simp [normLoop, hlon] at h
  rcases hlat : parseFloat p.lat with _ | lat
  · simp [normLoop, hlon, hlat] at h
  rcases hele : parseFloat p.ele with _ | ele
  · simp [normLoop, hlon, hlat, hele] at h
  rcases ht : parseTimestamp p.time with _ | t
  · simp [normLoop, hlon, hlat, hele, ht] at h
  rcases hrec : normLoop rest (stepBounds b lon lat) with e | pr
  · simp [normLoop, hlon, hlat, hele, ht, hrec] at h
  obtain ⟨ps, b2'⟩ := pr
  simp only [normLoop, hlon, hlat, hele, ht, hrec, Except.ok.injEq,
    Prod.mk.injEq] at h
  obtain ⟨h1, h2⟩ := h
  subst h2
  refine ⟨⟨lon, lat, ele, t⟩, ps, ?_, hrec, h1.symm⟩
  simp [convPoint, hlon, hlat, hele, ht]

theorem normLoop_ok : ∀ (pts : List RawPoint) (b : Bounds) (nps : List UPoint)
    (b2 : Bounds), normLoop pts b = .ok (nps, b2) →
    List.Forall₂ (fun p q => convPoint p = some q) pts nps ∧
      b2 = boundsFold b (nps.map fun q => (q.lon, q.lat)) := by
  intro pts
  induction pts with
  | nil =>
      intro b nps b2 h
      rw [normLoop] at h
      simp only [Except.ok.injEq, Prod.mk.injEq] at h
      obtain ⟨h1, h2⟩ := h
      subst h1
      subst h2
      exact ⟨List.Forall₂.nil, rfl⟩
  | cons p rest ih =>
      intro b nps b2 h
      obtain ⟨q, ps, hq, hrec, rfl⟩ := normLoop_cons_ok h
      obtain ⟨hf, hb⟩ := ih _ _ _ hrec
      exact ⟨List.Forall₂.cons hq hf, hb⟩

theorem normLoop_error : ∀ (pts : List RawPoint) (b : Bounds),
    (∃ p ∈ pts, convPoint p = none) →
    ∃ e, normLoop pts b = .error e := by
  intro pts
  induction pts with
  | nil =>
      intro b h
      simp at h
  | cons p rest ih =>
      intro b h
      rcases hlon : parseFloat p.lon with _ | lon
      · exact ⟨"ValueError: could not convert string to float",
          by simp [normLoop, hlon]⟩
      rcases hlat : parseFloat p.lat with _ | lat
      · exact ⟨"ValueError: could not convert string to float",
          by simp [normLoop, hlon, hlat]⟩
      rcases hele : parseFloat p.ele with _ | ele
      · exact ⟨"ValueError: could not convert string to float",
          by simp [normLoop, hlon, hlat, hele]⟩
      rcases ht : parseTimestamp p.time with _ | t
      · exact ⟨"ValueError: time data does not match format",
          by simp [normLoop, hlon, hlat, hele, ht]⟩
      rcases h with ⟨p', hp', hc⟩
      rcases List.mem_cons.mp hp' with rfl | hmem
      · exfalso
        simp [convPoint, hlon, hlat, hele, ht] at hc
      · obtain ⟨e, he⟩ := ih (stepBounds b lon lat) ⟨p', hmem, hc⟩
        exact ⟨e, by simp [normLoop, hlon, hlat, hele, ht, he]⟩

theorem read_gpx_ok_elim {doc : GpxDoc} {r : ReadResult}
    (h : read_gpx doc = .ok r) :
    ∃ mt ad trk pts nps b,
      doc.metadataTime = some mt ∧ parseTimestamp mt = some ad ∧
      doc.trk = some trk ∧ trk.trkpts = some pts ∧
      normLoop pts initBounds = .ok (nps, b) ∧
      r = ⟨ad, trk.name, b.xmin, b.xmax, b.ymin, b.ymax, mkRows nps⟩ := by
  rcases hmt : doc.metadataTime with _ | mt
  · simp [read_gpx, hmt] at h
  rcases had : parseTimestamp mt with _ | ad
  · simp [read_gpx, hmt, had] at h
  rcases htrk : doc.trk with _ | trk
  · simp [read_gpx, hmt, had, htrk] at h
  rcases hpts : trk.trkpts with _ | pts
  · simp [read_gpx, hmt, had, htrk, hpts] at h
  rcases hnl : normLoop pts initBounds with e | pr
  · simp [read_gpx, hmt, had, htrk, hpts, hnl] at h
  obtain ⟨nps, b⟩ := pr
  refine ⟨mt, ad, trk, pts, nps, b, rfl, had, rfl, hpts, hnl, ?_⟩
  simp only [read_gpx, hmt, had, htrk, hpts, hnl, Except.ok.injEq] at h
  exact h.symm

theorem mkRows_eq_map {nps : List UPoint} {p0 : UPoint} {rest : List UPoint}
    (h : nps = p0 :: rest) :
    mkRows nps = nps.map (fun p =>
      URow.mk p.time p.lon p.lat p.ele ((tdSeconds p0.time p.time : ℤ) : ℚ)) := by
  subst h
  rfl

end Utils

/-! ### Structure lemmas for the `src/gpx_utils.py` variant -/

namespace GpxUtils

theorem convPointG_fields {p : RawPoint} {q : GPoint} (h : convPoint p = some q) :
    parseFloat p.lon = some q.lon ∧ parseFloat p.lat = some q.lat ∧
      parseFloat p.ele = some q.ele ∧ q.time = p.time ∧ q.extra = p.extra := by
  rcases hlon : parseFloat p.lon with _ | lon
  · simp [convPoint, hlon] at h
  rcases hlat : parseFloat p.lat with _ | lat
  · simp [convPoint, hlon, hlat] at h
  rcases hele : parseFloat p.ele with _ | ele
  · simp [convPoint, hlon, hlat, hele] at h
  have hq : GPoint.mk lon lat ele p.time p.extra = q := by
    simpa [convPoint, hlon, hlat, hele] using h
  subst hq
  exact ⟨rfl, rfl, rfl, rfl, rfl⟩

theorem normLoopG_cons_ok {p : RawPoint} {rest : List RawPoint} {b : Bounds}
    {nps : List GPoint} {b2 : Bounds}
    (h : normLoop (p :: rest) b = .ok (nps, b2)) :
    ∃ q ps, convPoint p = some q ∧
      normLoop rest (stepBounds b q.lon q.lat) = .ok (ps, b2) ∧
      nps = q :: ps := by
  rcases hlon : parseFloat p.lon with _ | lon
  · simp [normLoop, hlon] at h
  rcases hlat : parseFloat p.lat with _ | lat
  · simp [normLoop, hlon, hlat] at h
  rcases hele : parseFloat p.ele with _ | ele
  · simp [normLoop, hlon, hlat, hele] at h
  rcases hrec : normLoop rest (stepBounds b lon lat) with e | pr
  · simp [normLoop, hlon, hlat, hele, hrec] at h
  obtain ⟨ps, b2'⟩ := pr
  simp only [normLoop, hlon, hlat, hele, hrec, Except.ok.injEq,
    Prod.mk.injEq] at h
  obtain ⟨h1, h2⟩ := h
  subst h2
  refine ⟨⟨lon, lat, ele, p.time, p.extra⟩, ps, ?_, hrec, h1.symm⟩
  simp [convPoint, hlon, hlat, hele]

theorem normLoopG_ok : ∀ (pts : List RawPoint) (b : Bounds) (nps : List GPoint)
    (b2 : Bounds), normLoop pts b = .ok (nps, b2) →
    List.Forall₂ (fun p q => convPoint p = some q) pts nps ∧
      b2 = boundsFold b (nps.map fun q => (q.lon, q.lat)) := by
  intro pts
  induction pts with
  | nil =>
      intro b nps b2 h
      rw [normLoop] at h
      simp only [Except.ok.injEq, Prod.mk.injEq] at h
      obtain ⟨h1, h2⟩ := h
      subst h1
      subst h2
      exact ⟨List.Forall₂.nil, rfl⟩
  | cons p rest ih =>
      intro b nps b2 h
      obtain ⟨q, ps, hq, hrec, rfl⟩ := normLoopG_cons_ok h
      obtain ⟨hf, hb⟩ := ih _ _ _ hrec
      exact ⟨List.Forall₂.cons hq hf, hb⟩

theorem read_gpxG_ok_elim {doc : GpxDoc} {r : ReadResult}
    (h : read_gpx doc = .ok r) :
    ∃ mt ad trk pts nps b,
      doc.metadataTime = some mt ∧ parseTimestamp mt = some ad ∧
      doc.trk = some trk ∧ trk.trkpts = some pts ∧
      normLoop pts initBounds = .ok (nps, b) ∧
      r = ⟨ad, trk.name, b.xmin, b.xmax, b.ymin, b.ymax, nps⟩ := by
  rcases hmt : doc.metadataTime with _ | mt
  · simp [read_gpx, hmt] at h
  rcases had : parseTimestamp mt with _ | ad
  · simp [read_gpx, hmt, had] at h
  rcases htrk : doc.trk with _ | trk
  · simp [read_gpx, hmt, had, htrk] at h
  rcases hpts : trk.trkpts with _ | pts
  · simp [read_gpx, hmt, had, htrk, hpts] at h
  rcases hnl : normLoop pts initBounds with e | pr
  · simp [read_gpx, hmt, had, htrk, hpts, hnl] at h
  obtain ⟨nps, b⟩ := pr
  refine ⟨mt, ad, trk, pts, nps, b, rfl, had, rfl, hpts, hnl, ?_⟩
  simp only [read_gpx, hmt, had, htrk, hpts, hnl, Except.ok.injEq] at h
  exact h.symm

end GpxUtils

/-! ### Components of the bounds fold -/

theorem boundsFold_xmin (cs : List (ℚ × ℚ)) :
    ∀ b : Bounds, (boundsFold b cs).xmin = foldMin b.xmin (cs.map Prod.fst) := by
  induction cs with
  | nil => intro b; rfl
  | cons c cs ih =>
      intro b
      rw [show boundsFold b (c :: cs) = boundsFold (stepBounds b c.1 c.2) cs from rfl]
      rw [ih]
      rfl

theorem boundsFold_xmax (cs : List (ℚ × ℚ)) :
    ∀ b : Bounds, (boundsFold b cs).xmax = foldMax b.xmax (cs.map Prod.fst) := by
  induction cs with
  | nil => intro b; rfl
  | cons c cs ih =>
      intro b
      rw [show boundsFold b (c :: cs) = boundsFold (stepBounds b c.1 c.2) cs from rfl]
      rw [ih]
      rfl

theorem boundsFold_ymin (cs : List (ℚ × ℚ)) :
    ∀ b : Bounds, (boundsFold b cs).ymin = foldMin b.ymin (cs.map Prod.snd) := by
  induction cs with
  | nil => intro b; rfl
  | cons c cs ih =>
      intro b
      rw [show boundsFold b (c :: cs) = boundsFold (stepBounds b c.1 c.2) cs from rfl]
      rw [ih]
      rfl

theorem boundsFold_ymax (cs : List (ℚ × ℚ)) :
    ∀ b : Bounds, (boundsFold b cs).ymax = foldMax b.ymax (cs.map Prod.snd) := by
  induction cs with
  | nil => intro b; rfl
  | cons c cs ih =>
      intro b
      rw [show boundsFold b (c :: cs) = boundsFold (stepBounds b c.1 c.2) cs from rfl]
      rw [ih]
      rfl

theorem foldBounds_cons_minmax {c : ℚ × ℚ} (cs : List (ℚ × ℚ))
    (h2 : c.1 ≤ 180) (h1 : -180 ≤ c.1) (h4 : c.2 ≤ 90) (h3 : -90 ≤ c.2) :
    (foldBounds (c :: cs)).xmin = foldMin c.1 (cs.map Prod.fst) ∧
    (foldBounds (c :: cs)).xmax = foldMax c.1 (cs.map Prod.fst) ∧
    (foldBounds (c :: cs)).ymin = foldMin c.2 (cs.map Prod.snd) ∧
    (foldBounds (c :: cs)).ymax = foldMax c.2 (cs.map Prod.snd) := by
  refine ⟨?_, ?_, ?_, ?_⟩
  · rw [foldBounds, boundsFold_xmin, List.map_cons]
    exact foldMin_sentinel 180 c.1 _ h2
  · rw [foldBounds, boundsFold_xmax, List.map_cons]
    exact foldMax_sentinel (-180) c.1 _ h1
  · rw [foldBounds, boundsFold_ymin, List.map_cons]
    exact foldMin_sentinel 90 c.2 _ h4
  · rw [foldBounds, boundsFold_ymax, List.map_cons]
    exact foldMax_sentinel (-90) c.2 _ h3

/-- C5: on every non-empty coordinate list whose longitudes lie in
[-180, 180] and latitudes in [-90, 90], the single-pass bounds-tracking
fold of `read_gpx` (sentinels 180, -180, 90, -90) computes exactly the
four values of the reference definition that takes the min and max of the
longitude and latitude lists directly. -/
theorem foldBounds_eq_specBounds (coords : List (ℚ × ℚ)) (hne : coords ≠ [])
    (hrange : ∀ c ∈ coords, -180 ≤ c.1 ∧ c.1 ≤ 180 ∧ -90 ≤ c.2 ∧ c.2 ≤ 90) :
    specBounds coords =
      some ((foldBounds coords).xmin, (foldBounds coords).xmax,
        (foldBounds coords).ymin, (foldBounds coords).ymax) := by
  rcases coords with _ | ⟨c, cs⟩
  · exact absurd rfl hne
  obtain ⟨r1, r2, r3, r4⟩ := hrange c (List.mem_cons_self c cs)
  obtain ⟨e1, e2, e3, e4⟩ := foldBounds_cons_minmax cs r2 r1 r4 r3
  rw [e1, e2, e3, e4]
  simp [specBounds, List.map_cons, listMin_cons, listMax_cons]

/-- C5 witness: the fold and the direct min/max agree on a concrete
two-point coordinate list. -/
theorem foldBounds_eq_specBounds_witness :
    specBounds [((3 : ℚ)/2, 45), (5/2, 44)] =
      some ((foldBounds [((3 : ℚ)/2, 45), (5/2, 44)]).xmin,
        (foldBounds [((3 : ℚ)/2, 45), (5/2, 44)]).xmax,
        (foldBounds [((3 : ℚ)/2, 45), (5/2, 44)]).ymin,
        (foldBounds [((3 : ℚ)/2, 45), (5/2, 44)]).ymax) :=
  foldBounds_eq_specBounds [((3 : ℚ)/2, 45), (5/2, 44)] (by simp) (by norm_num)

/-- C1: for a non-empty track whose longitudes lie in [-180, 180] and
latitudes in [-90, 90], `read_gpx` of `utils.py` returns xmin, xmax,
ymin, ymax equal to the minimum and maximum longitude and latitude over
all returned points -- the geographic bounding box of the track. -/
theorem read_gpx_bounding_box {doc : GpxDoc} {trk : Trk} {pts : List RawPoint}
    {r : Utils.ReadResult}
    (hok : Utils.read_gpx doc = .ok r)
    (htrk : doc.trk = some trk) (hpts : trk.trkpts = some pts) (hne : pts ≠ [])
    (hrange : ∀ row ∈ r.frame, -180 ≤ row.lon ∧ row.lon ≤ 180 ∧
      -90 ≤ row.lat ∧ row.lat ≤ 90) :
    listMin (r.frame.map Utils.URow.lon) = some r.xmin ∧
    listMax (r.frame.map Utils.URow.lon) = some r.xmax ∧
    listMin (r.frame.map Utils.URow.lat) = some r.ymin ∧
    listMax (r.frame.map Utils.URow.lat) = some r.ymax := by
  obtain ⟨mt, ad, trk', pts', nps, b, hmt, had, htrk', hpts', hnl, rfl⟩ :=
    Utils.read_gpx_ok_elim hok
  rw [htrk] at htrk'
  obtain rfl : trk = trk' := Option.some.inj htrk'
  rw [hpts] at hpts'
  obtain rfl : pts = pts' := Option.some.inj hpts'
  obtain ⟨hfa, hb⟩ := Utils.normLoop_ok pts initBounds nps b hnl
  have hlen := List.Forall₂.length_eq hfa
  cases nps with
  | nil =>
      cases pts with
      | nil => exact absurd rfl hne
      | cons p ps => simp at hlen
  | cons q nrest =>
      have hq := hrange
        (Utils.URow.mk q.time q.lon q.lat q.ele ((tdSeconds q.time q.time : ℤ) : ℚ))
        (by simp [Utils.mkRows_eq_map (rfl : q :: nrest = q :: nrest)])
      obtain ⟨k1, k2, k3, k4⟩ := hq
      subst hb
      simp only [Utils.mkRows_eq_map (rfl : q :: nrest = q :: nrest),
        List.map_cons, List.map_map, Function.comp_def]
      refine ⟨?_, ?_, ?_, ?_⟩
      · rw [boundsFold_xmin]
        simp only [initBounds, List.map_cons, List.map_map, Function.comp_def]
        rw [foldMin_sentinel 180 q.lon _ k2, listMin_cons]
      · rw [boundsFold_xmax]
        simp only [initBounds, List.map_cons, List.map_map, Function.comp_def]
        rw [foldMax_sentinel (-180) q.lon _ k1, listMax_cons]
      · rw [boundsFold_ymin]
        simp only [initBounds, List.map_cons, List.map_map, Function.comp_def]
        rw [foldMin_sentinel 90 q.lat _ k4, listMin_cons]
      · rw [boundsFold_ymax]
        simp only [initBounds, List.map_cons, List.map_map, Function.comp_def]
        rw [foldMax_sentinel (-90) q.lat _ k3, listMax_cons]

/-- Shared description of the data frame `read_gpx` of `utils.py`
returns: one row per input point, each row's fields coming from that
point's conversion. -/
theorem read_gpx_frame_spec {doc : GpxDoc} {trk : Trk} {pts : List RawPoint}
    {r : Utils.ReadResult}
    (hok : Utils.read_gpx doc = .ok r)
    (htrk : doc.trk = some trk) (hpts : trk.trkpts = some pts) :
    r.frame.length = pts.length ∧
    ∀ i (p : RawPoint), pts.get? i = some p →
      ∃ q : Utils.UPoint, Utils.convPoint p = some q ∧
        ∃ row : Utils.URow, r.frame.get? i = some row ∧
          row.lon = q.lon ∧ row.lat = q.lat ∧ row.ele = q.ele ∧
          row.idx = q.time := by
  obtain ⟨mt, ad, trk', pts', nps, b, hmt, had, htrk', hpts', hnl, rfl⟩ :=
    Utils.read_gpx_ok_elim hok
  rw [htrk] at htrk'
  obtain rfl : trk = trk' := Option.some.inj htrk'
  rw [hpts] at hpts'
  obtain rfl : pts = pts' := Option.some.inj hpts'
  obtain ⟨hfa, hb⟩ := Utils.normLoop_ok pts initBounds nps b hnl
  obtain ⟨hlen, hget⟩ := List.forall₂_iff_get.mp hfa
  cases nps with
  | nil =>
      have hpts0 : pts = [] := List.length_eq_zero.mp (by simpa using hlen)
      subst hpts0
      refine ⟨by simp [Utils.mkRows], ?_⟩
      intro i p hp
      simp at hp
  | cons q nrest =>
      constructor
      · show (Utils.mkRows (q :: nrest)).length = pts.length
        rw [Utils.mkRows_eq_map (rfl : q :: nrest = q :: nrest), List.length_map]
        exact hlen.symm
      · intro i p hp
        have hip : i < pts.length := by
          rcases List.get?_eq_some.mp hp with ⟨h, _⟩
          exact h
        have hin : i < (q :: nrest).length := hlen ▸ hip
        obtain rfl : p = pts.get ⟨i, hip⟩ :=
          (Option.some.inj ((List.get?_eq_get hip) ▸ hp)).symm
        have hrow : (Utils.mkRows (q :: nrest)).get? i
            = some (Utils.URow.mk ((q :: nrest).get ⟨i, hin⟩).time
                ((q :: nrest).get ⟨i, hin⟩).lon ((q :: nrest).get ⟨i, hin⟩).lat
                ((q :: nrest).get ⟨i, hin⟩).ele
                ((tdSeconds q.time ((q :: nrest).get ⟨i, hin⟩).time : ℤ) : ℚ)) := by
          rw [Utils.mkRows_eq_map (rfl : q :: nrest = q :: nrest), List.get?_map,
            List.get?_eq_get hin]
          rfl
        exact ⟨(q :: nrest).get ⟨i, hin⟩, hget i hip hin, _, hrow, rfl, rfl, rfl, rfl⟩

/-- C4: `read_gpx` of `utils.py` coerces every point's "@lon", "@lat" and
"ele" strings with float(): each returned row's lon, lat, ele are exactly
the float conversions of the corresponding input strings. -/
theorem read_gpx_type_coercion {doc : GpxDoc} {trk : Trk} {pts : List RawPoint}
    {r : Utils.ReadResult}
    (hok : Utils.read_gpx doc = .ok r)
    (htrk : doc.trk = some trk) (hpts : trk.trkpts = some pts) :
    ∀ i (p : RawPoint), pts.get? i = some p →
      ∃ row : Utils.URow, r.frame.get? i = some row ∧
        parseFloat p.lon = some row.lon ∧
        parseFloat p.lat = some row.lat ∧
        parseFloat p.ele = some row.ele := by
  obtain ⟨hlen, hspec⟩ := read_gpx_frame_spec hok htrk hpts
  intro i p hp
  obtain ⟨q, hc, row, hrow, e1, e2, e3, e4⟩ := hspec i p hp
  obtain ⟨f1, f2, f3, f4⟩ := Utils.convPoint_fields hc
  refine ⟨row, hrow, ?_, ?_, ?_⟩
  · rw [e1]; exact f1
  · rw [e2]; exact f2
  · rw [e3]; exact f3

/-- C4 witness: the coercion equations hold at index 0 of the concrete
track `exDoc`. -/
theorem read_gpx_type_coercion_witness :
    ∃ row : Utils.URow, exResult.frame.get? 0 = some row ∧
      parseFloat "1" = some row.lon ∧
      parseFloat "45" = some row.lat ∧
      parseFloat "100" = some row.ele :=
  @read_gpx_type_coercion exDoc ⟨"morning run", some exPts⟩ exPts exResult
    (by rfl) rfl rfl 0 ⟨"1", "45", "100", "2020-01-01T10:00:00Z", []⟩ (by rfl)

/-- C9: the returned table has exactly one row per trkpt, in document
order: the lengths agree and the i-th row's index timestamp is the parse
of the i-th input point's "time" string. -/
theorem read_gpx_one_row_per_trkpt {doc : GpxDoc} {trk : Trk}
    {pts : List RawPoint} {r : Utils.ReadResult}
    (hok : Utils.read_gpx doc = .ok r)
    (htrk : doc.trk = some trk) (hpts : trk.trkpts = some pts) :
    r.frame.length = pts.length ∧
    ∀ i (p : RawPoint), pts.get? i = some p →
      ∃ row : Utils.URow, r.frame.get? i = some row ∧
        parseTimestamp p.time = some row.idx := by
  obtain ⟨hlen, hspec⟩ := read_gpx_frame_spec hok htrk hpts
  refine ⟨hlen, ?_⟩
  intro i p hp
  obtain ⟨q, hc, row, hrow, e1, e2, e3, e4⟩ := hspec i p hp
  obtain ⟨f1, f2, f3, f4⟩ := Utils.convPoint_fields hc
  refine ⟨row, hrow, ?_⟩
  rw [e4]
  exact f4

/-- C9 witness: on `exDoc` the frame has as many rows as points, and row 1
carries point 1's timestamp. -/
theorem read_gpx_one_row_per_trkpt_witness :
    exResult.frame.length = exPts.length ∧
    ∃ row : Utils.URow, exResult.frame.get? 1 = some row ∧
      parseTimestamp "2020-01-01T10:00:05Z" = some row.idx :=
  ⟨(@read_gpx_one_row_per_trkpt exDoc ⟨"morning run", some exPts⟩ exPts exResult
      (by rfl) rfl rfl).1,
    (@read_gpx_one_row_per_trkpt exDoc ⟨"morning run", some exPts⟩ exPts exResult
      (by rfl) rfl rfl).2 1
      ⟨"2", "44", "110", "2020-01-01T10:00:05Z", [("hdop", "3")]⟩ (by rfl)⟩

/-- C1 witness: on the concrete track `exDoc` the returned bounds are the
min/max of the returned longitudes and latitudes. -/
theorem read_gpx_bounding_box_witness :
    listMin (exResult.frame.map Utils.URow.lon) = some exResult.xmin ∧
    listMax (exResult.frame.map Utils.URow.lon) = some exResult.xmax ∧
    listMin (exResult.frame.map Utils.URow.lat) = some exResult.ymin ∧
    listMax (exResult.frame.map Utils.URow.lat) = some exResult.ymax :=
  @read_gpx_bounding_box exDoc ⟨"morning run", some exPts⟩ exPts exResult
    (by rfl) rfl rfl (by decide) (by decide)

/-- C3 counterexample: `read_gpx` performs no sorting, so on `descDoc`,
whose two trkpt timestamps appear in decreasing document order, it
succeeds and the returned data frame index is not non-decreasing. -/
theorem read_gpx_not_time_ordered :
    Utils.read_gpx descDoc = .ok descResult ∧
    ¬ List.Chain' (fun a b : DateTime => toSecs a ≤ toSecs b)
        (descResult.frame.map Utils.URow.idx) := by
  refine ⟨by rfl, ?_⟩
  show ¬ List.Chain' _ [(⟨2020, 1, 1, 10, 0, 10⟩ : DateTime), ⟨2020, 1, 1, 10, 0, 5⟩]
  rw [List.chain'_pair]
  decide

/-- C3 (amended): the data frame index holds the point timestamps in
document order, so it is non-decreasing for every input whose trkpt
timestamps are non-decreasing in document order. -/
theorem read_gpx_time_ordered_of_monotone {doc : GpxDoc} {trk : Trk}
    {pts : List RawPoint} {r : Utils.ReadResult}
    (hok : Utils.read_gpx doc = .ok r)
    (htrk : doc.trk = some trk) (hpts : trk.trkpts = some pts)
    (hmono : List.Chain' (fun p p' => stampLE p p' = true) pts) :
    List.Chain' (fun a b : DateTime => toSecs a ≤ toSecs b)
      (r.frame.map Utils.URow.idx) := by
  obtain ⟨hlen, hspec⟩ := read_gpx_frame_spec hok htrk hpts
  rw [List.chain'_map]
  rw [List.chain'_iff_get] at hmono ⊢
  intro i h
  have h1 : i < r.frame.length := by omega
  have h2 : i + 1 < r.frame.length := by omega
  have hp1 : i < pts.length := by omega
  have hp2 : i + 1 < pts.length := by omega
  obtain ⟨q1, hc1, row1, hrow1, _, _, _, e1⟩ :=
    hspec i (pts.get ⟨i, hp1⟩) (List.get?_eq_get hp1)
  obtain ⟨q2, hc2, row2, hrow2, _, _, _, e2⟩ :=
    hspec (i + 1) (pts.get ⟨i + 1, hp2⟩) (List.get?_eq_get hp2)
  obtain ⟨_, _, _, f1⟩ := Utils.convPoint_fields hc1
  obtain ⟨_, _, _, f2⟩ := Utils.convPoint_fields hc2
  have hro1 : r.frame.get ⟨i, h1⟩ = row1 :=
    Option.some.inj ((List.get?_eq_get h1).symm.trans hrow1)
  have hro2 : r.frame.get ⟨i + 1, h2⟩ = row2 :=
    Option.some.inj ((List.get?_eq_get h2).symm.trans hrow2)
  have hm := hmono i (by omega)
  simp only [stampLE, f1, f2, decide_eq_true_eq] at hm
  rw [hro1, hro2, e1, e2]
  exact hm

/-- C3 witness: on the concrete track `exDoc`, whose timestamps increase,
the returned index is non-decreasing. -/
theorem read_gpx_time_ordered_witness :
    List.Chain' (fun a b : DateTime => toSecs a ≤ toSecs b)
      (exResult.frame.map Utils.URow.idx) :=
  @read_gpx_time_ordered_of_monotone exDoc ⟨"morning run", some exPts⟩ exPts
    exResult (by rfl) rfl rfl
    (by
      show List.Chain' _ [(⟨"1", "45", "100", "2020-01-01T10:00:00Z", []⟩ : RawPoint),
        ⟨"2", "44", "110", "2020-01-01T10:00:05Z", [("hdop", "3")]⟩]
      rw [List.chain'_pair]
      decide)

/-- C2 (code bug): the "time" column is computed with
`(t - points[0].time).seconds`, which discards whole days. On
`dayGapDoc`, whose two timestamps are 86410 seconds apart, the second
row's "time" entry is 10, not the elapsed 86410 seconds, contradicting
the docstring "time elapsed since activity start in seconds". -/
theorem read_gpx_elapsed_time_bug :
    Utils.read_gpx dayGapDoc = .ok dayGapResult ∧
    dayGapResult.frame.get? 1 = some ⟨⟨2020, 1, 2, 0, 0, 10⟩, 2, 44, 110, 10⟩ ∧
    tdSeconds ⟨2020, 1, 1, 0, 0, 0⟩ ⟨2020, 1, 2, 0, 0, 10⟩ = 10 ∧
    totalSeconds ⟨2020, 1, 1, 0, 0, 0⟩ ⟨2020, 1, 2, 0, 0, 10⟩ = 86410 ∧
    (10 : ℚ) ≠ 86410 :=
  ⟨by rfl, by rfl, by decide, by decide, by decide⟩

/-- C7: `read_gpx` has no failure-recovery logic: on each malformed-input
condition (missing gpx/metadata/time or gpx/trk or trkpt keys, a
timestamp not matching the format, a non-numeric lon/lat/ele string) it
propagates an error and returns no result. -/
theorem read_gpx_error_propagation (doc : GpxDoc)
    (h : doc.metadataTime = none ∨
      (∃ mt, doc.metadataTime = some mt ∧ parseTimestamp mt = none) ∨
      doc.trk = none ∨
      (∃ trk, doc.trk = some trk ∧ trk.trkpts = none) ∨
      (∃ trk pts p, doc.trk = some trk ∧ trk.trkpts = some pts ∧ p ∈ pts ∧
        (parseFloat p.lon = none ∨ parseFloat p.lat = none ∨
          parseFloat p.ele = none ∨ parseTimestamp p.time = none))) :
    ∃ e, Utils.read_gpx doc = .error e := by
  rcases h with hmt | ⟨mt, hmt, hts⟩ | htrk | ⟨trk, htrk, hpt⟩ |
    ⟨trk, pts, p, htrk, hpt, hmem, hbad⟩
  · exact ⟨"KeyError: time", by simp [Utils.read_gpx, hmt]⟩
  · exact ⟨"ValueError: time data does not match format",
      by simp [Utils.read_gpx, hmt, hts]⟩
  all_goals
    rcases hmt2 : doc.metadataTime with _ | mt2
  · exact ⟨"KeyError: time", by simp [Utils.read_gpx, hmt2]⟩
  case _ =>
    rcases hts2 : parseTimestamp mt2 with _ | ad
    · exact ⟨"ValueError: time data does not match format",
        by simp [Utils.read_gpx, hmt2, hts2]⟩
    · exact ⟨"KeyError: trk", by simp [Utils.read_gpx, hmt2, hts2, htrk]⟩
  · exact ⟨"KeyError: time", by simp [Utils.read_gpx, hmt2]⟩
  case _ =>
    rcases hts2 : parseTimestamp mt2 with _ | ad
    · exact ⟨"ValueError: time data does not match format",
        by simp [Utils.read_gpx, hmt2, hts2]⟩
    · exact ⟨"KeyError: trkpt", by simp [Utils.read_gpx, hmt2, hts2, htrk, hpt]⟩
  · exact ⟨"KeyError: time", by simp [Utils.read_gpx, hmt2]⟩
  case _ =>
    rcases hts2 : parseTimestamp mt2 with _ | ad
    · exact ⟨"ValueError: time data does not match format",
        by simp [Utils.read_gpx, hmt2, hts2]⟩
    have hcp : Utils.convPoint p = none := by
      rcases hlon : parseFloat p.lon with _ | lon
      · simp [Utils.convPoint, hlon]
      rcases hlat : parseFloat p.lat with _ | lat
      · simp [Utils.convPoint, hlon, hlat]
      rcases hele : parseFloat p.ele with _ | ele
      · simp [Utils.convPoint, hlon, hlat, hele]
      rcases hts : parseTimestamp p.time with _ | t
      · simp [Utils.convPoint, hlon, hlat, hele, hts]
      exfalso
      rcases hbad with hb | hb | hb | hb
      · simp [hb] at hlon
      · simp [hb] at hlat
      · simp [hb] at hele
      · simp [hb] at hts
    obtain ⟨e, he⟩ := Utils.normLoop_error pts initBounds ⟨p, hmem, hcp⟩
    exact ⟨e, by simp [Utils.read_gpx, hmt2, hts2, htrk, hpt, he]⟩

/-- C7 witness: a document missing gpx/metadata/time, and one with a
non-numeric longitude string, both make `read_gpx` return an error. -/
theorem read_gpx_error_propagation_witness :
    (∃ e, Utils.read_gpx noTimeDoc = .error e) ∧
    (∃ e, Utils.read_gpx badLonDoc = .error e) :=
  ⟨read_gpx_error_propagation noTimeDoc (Or.inl rfl),
    read_gpx_error_propagation badLonDoc (Or.inr (Or.inr (Or.inr (Or.inr
      ⟨⟨"run", some [⟨"not-a-number", "45.0", "100.0", "2020-01-01T10:00:00Z", []⟩]⟩,
        [⟨"not-a-number", "45.0", "100.0", "2020-01-01T10:00:00Z", []⟩],
        ⟨"not-a-number", "45.0", "100.0", "2020-01-01T10:00:00Z", []⟩,
        rfl, rfl, List.mem_singleton.mpr rfl, Or.inl (by rfl)⟩))))⟩

/-- C8: on a track with an empty point list, `read_gpx` of
`src/gpx_utils.py` does not fail at the bounds computation: it returns
the untouched sentinels xmin = 180, xmax = -180, ymin = 90, ymax = -90,
an inverted box with xmin > xmax and ymin > ymax. -/
theorem read_gpx_empty_sentinel_bounds {doc : GpxDoc} {mt : String}
    {ad : DateTime} {trk : Trk}
    (hmt : doc.metadataTime = some mt) (had : parseTimestamp mt = some ad)
    (htrk : doc.trk = some trk) (hpts : trk.trkpts = some ([] : List RawPoint)) :
    GpxUtils.read_gpx doc = .ok ⟨ad, trk.name, 180, -180, 90, -90, []⟩ ∧
    (180 : ℚ) > -180 ∧ (90 : ℚ) > -90 := by
  refine ⟨?_, by norm_num, by norm_num⟩
  simp [GpxUtils.read_gpx, hmt, had, htrk, hpts, GpxUtils.normLoop, initBounds]

/-- C8 witness: the sentinel bounds on the concrete empty-track document. -/
theorem read_gpx_empty_sentinel_bounds_witness :
    GpxUtils.read_gpx emptyDoc
        = .ok ⟨⟨2020, 1, 1, 9, 59, 0⟩, "empty", 180, -180, 90, -90, []⟩ ∧
    (180 : ℚ) > -180 ∧ (90 : ℚ) > -90 :=
  @read_gpx_empty_sentinel_bounds emptyDoc "2020-01-01T09:59:00Z"
    ⟨2020, 1, 1, 9, 59, 0⟩ ⟨"empty", some []⟩ rfl (by rfl) rfl rfl

/-- C10: `read_gpx` of `src/gpx_utils.py` replaces only the "@lon",
"@lat", "ele" fields of each point dict: the returned points keep the
original "time" string and every other field unchanged. -/
theorem read_gpx_shapely_preserves_other_fields {doc : GpxDoc} {trk : Trk}
    {pts : List RawPoint} {r : GpxUtils.ReadResult}
    (hok : GpxUtils.read_gpx doc = .ok r)
    (htrk : doc.trk = some trk) (hpts : trk.trkpts = some pts) :
    r.points.length = pts.length ∧
    ∀ i (p : RawPoint), pts.get? i = some p →
      ∃ q : GpxUtils.GPoint, r.points.get? i = some q ∧
        q.time = p.time ∧ q.extra = p.extra := by
  obtain ⟨mt, ad, trk', pts', nps, b, hmt, had, htrk', hpts', hnl, rfl⟩ :=
    GpxUtils.read_gpxG_ok_elim hok
  rw [htrk] at htrk'
  obtain rfl : trk = trk' := Option.some.inj htrk'
  rw [hpts] at hpts'
  obtain rfl : pts = pts' := Option.some.inj hpts'
  obtain ⟨hfa, hb⟩ := GpxUtils.normLoopG_ok pts initBounds nps b hnl
  obtain ⟨hlen, hget⟩ := List.forall₂_iff_get.mp hfa
  refine ⟨hlen.symm, ?_⟩
  intro i p hp
  have hip : i < pts.length := by
    rcases List.get?_eq_some.mp hp with ⟨hh, _⟩
    exact hh
  have hin : i < nps.length := hlen ▸ hip
  obtain rfl : p = pts.get ⟨i, hip⟩ :=
    (Option.some.inj ((List.get?_eq_get hip) ▸ hp)).symm
  obtain ⟨f1, f2, f3, f4, f5⟩ := GpxUtils.convPointG_fields (hget i hip hin)
  exact ⟨nps.get ⟨i, hin⟩, List.get?_eq_get hin, f4, f5⟩

/-- C10 witness: on `exDoc`, point 1's returned "time" string and extra
("hdop") field are the input's, unchanged. -/
theorem read_gpx_shapely_preserves_other_fields_witness :
    exResultG.points.length = exPts.length ∧
    ∃ q : GpxUtils.GPoint, exResultG.points.get? 1 = some q ∧
      q.time = "2020-01-01T10:00:05Z" ∧ q.extra = [("hdop", "3")] :=
  ⟨(@read_gpx_shapely_preserves_other_fields exDoc ⟨"morning run", some exPts⟩
      exPts exResultG (by rfl) rfl rfl).1,
    (@read_gpx_shapely_preserves_other_fields exDoc ⟨"morning run", some exPts⟩
      exPts exResultG (by rfl) rfl rfl).2 1
      ⟨"2", "44", "110", "2020-01-01T10:00:05Z", [("hdop", "3")]⟩ (by rfl)⟩

/-- C6 (modelled from the spec; the speed-coloring plotting variant is
not under src/): the derived speed column for coloring the plotted path
exists and equals the digital low-pass filter applied to the
gradient-derived velocities; on cumulative distances 0, 3, 8 at elapsed
times 0, 1, 2 the gradient velocities are 3, 4, 5 and the smoothed
column is 3, 7/2, 17/4. -/
theorem speed_column_smoothed :
    npGradient [0, 3, 8] = [3, 4, 5] ∧
    npGradient [0, 1, 2] = [1, 1, 1] ∧
    speedColumn (1/2) [0, 3, 8] [0, 1, 2] = lowpass (1/2) [3, 4, 5] ∧
    speedColumn (1/2) [0, 3, 8] [0, 1, 2] = [3, 7/2, 17/4] := by
  refine ⟨?_, ?_, ?_, ?_⟩
  · norm_num [npGradient, List.range_succ]
  · norm_num [npGradient, List.range_succ]
  · norm_num [speedColumn, npGradient, lowpass, lowpassAux, List.range_succ]
  · norm_num [speedColumn, npGradient, lowpass, lowpassAux, List.range_succ]

end Maprando
